import Mathlib

/-!
Shallow embedding of the `cache-lib` in-memory cache (`src/models.py`,
`src/concepts/{base,lru,lfu,fifo}.py`, `src/cache.py`).

Modelling conventions:
* Python timestamps and TTL durations are modelled as integers; the current
  time (`time.time()` in the source) is passed explicitly to every operation
  that reads the clock.
* Python dictionaries (which preserve insertion order) are modelled as
  association lists `List (String × CacheItem)`: updating an existing key
  keeps its position, inserting a new key appends at the back.
* The `OrderedDict`s holding only `True` values (`LRU.access_order`,
  `FIFO.insertion_order`) are modelled as `List String`.
* Python values (cache payloads and the arguments given to `get`/`delete`,
  which accept any hashable value) are modelled by the inductive `PyVal`;
  `PyVal.none` is Python's `None`.
* Raising code is modelled with `Except PyError`; `get` has no `raise`
  (its key-type check is commented out in the source) and so returns a pair.
-/

/-- A Python value: the hashable values relevant to the cache API.
`none` is Python's `None`. -/
inductive PyVal where
  | none
  | bool (b : Bool)
  | int (n : Int)
  | str (s : String)
deriving DecidableEq, Repr

/-- `isinstance(key, str)`. -/
def PyVal.isStr : PyVal → Bool
  | PyVal.str _ => true
  | _ => false

/-- Python exceptions that the embedded code can raise or catch. -/
inductive PyError where
  | typeError
  | valueError
  | keyError
  | stopIteration
deriving DecidableEq, Repr

/-- `models.CacheItem`: value, creation time, optional TTL, access counter,
last-access time. -/
structure CacheItem where
  value : PyVal
  created_at : Int
  ttl : Option Int
  access_count : Nat
  last_accessed : Int
deriving DecidableEq, Repr

/-- `CacheItem.is_expired`: `self.ttl is not None and time.time() > self.created_at + self.ttl`. -/
def CacheItem.is_expired (it : CacheItem) (now : Int) : Bool :=
  match it.ttl with
  | Option.none => false
  | Option.some t => decide (now > it.created_at + t)

/-- `CacheItem.touch`: increment `access_count`, set `last_accessed` to now. -/
def CacheItem.touch (it : CacheItem) (now : Int) : CacheItem :=
  { it with access_count := it.access_count + 1, last_accessed := now }

/-- `d[k]` lookup in an insertion-ordered dict modelled as an association list. -/
def dictLookup (k : String) : List (String × CacheItem) → Option CacheItem
  | [] => Option.none
  | (k2, v) :: rest => if k2 = k then Option.some v else dictLookup k rest

/-- `k in d`. -/
def dictContains (k : String) (d : List (String × CacheItem)) : Bool :=
  (dictLookup k d).isSome

/-- `d[k] = v`: replace in place if the key is present (Python dicts keep the
original position), otherwise append at the back. -/
def dictSet (k : String) (v : CacheItem) : List (String × CacheItem) → List (String × CacheItem)
  | [] => [(k, v)]
  | (k2, v2) :: rest => if k2 = k then (k, v) :: rest else (k2, v2) :: dictSet k v rest

/-- `del d[k]`: remove the (unique) entry for `k`; no-op when absent. -/
def dictRemove (k : String) : List (String × CacheItem) → List (String × CacheItem)
  | [] => []
  | (k2, v2) :: rest => if k2 = k then rest else (k2, v2) :: dictRemove k rest

/-- `od.pop(k, None)` / `del od[k]` on an `OrderedDict` of sentinels. -/
def odRemove (k : String) : List String → List String
  | [] => []
  | k2 :: rest => if k2 = k then rest else k2 :: odRemove k rest

/-- `od.pop(k, None)` followed by `od[k] = True`: move `k` to the back. -/
def odMoveToEnd (k : String) (l : List String) : List String :=
  odRemove k l ++ [k]

/-- `od[k] = True` without a preceding pop: keeps the position when the key is
already present, otherwise appends. -/
def odSet (k : String) (l : List String) : List String :=
  if k ∈ l then l else l ++ [k]

/-- `min(cache_data.keys(), key=lambda k: cache_data[k].access_count)` —
Python's `min` keeps the first minimum in iteration order, so the running best
is replaced only on a strictly smaller count. -/
def lfuMinAux (bk : String) (bc : Nat) : List (String × CacheItem) → String
  | [] => bk
  | (k, it) :: rest =>
      if it.access_count < bc then lfuMinAux k it.access_count rest
      else lfuMinAux bk bc rest

/-- `LFU.should_evict` body; `Option.none` models the `ValueError` that
`min` raises on an empty sequence. -/
def lfuMin : List (String × CacheItem) → Option String
  | [] => Option.none
  | (k, it) :: rest => Option.some (lfuMinAux k it.access_count rest)

/-- The four eviction strategies registered in `InMemoryCache.STRATEGIES`. -/
inductive Strategy where
  | lru
  | mru
  | lfu
  | fifo
deriving DecidableEq, Repr

/-- `hasattr(self._strategy, 'access_order')`: true exactly for the LRU and
MRU strategy objects. -/
def Strategy.hasAccessOrder : Strategy → Bool
  | Strategy.lru => true
  | Strategy.mru => true
  | _ => false

/-- `hasattr(self._strategy, 'insertion_order')`: true exactly for FIFO. -/
def Strategy.hasInsertionOrder : Strategy → Bool
  | Strategy.fifo => true
  | _ => false

/-- `hasattr(self._strategy, 'on_insert')`: true exactly for FIFO. -/
def Strategy.hasOnInsert : Strategy → Bool
  | Strategy.fifo => true
  | _ => false

/-- `cache.InMemoryCache` state: capacity, active strategy, the key→item dict,
the strategy objects' ordering structures, and the statistics counters.
The `access_order` field is only meaningful when `strategy.hasAccessOrder`,
`insertion_order` only when `strategy.hasInsertionOrder` (for the other
strategies the corresponding Python attribute does not exist). -/
structure InMemoryCache where
  max_size : Nat
  strategy : Strategy
  data : List (String × CacheItem)
  access_order : List String
  insertion_order : List String
  hits : Nat
  misses : Nat
  evictions : Nat
  expired : Nat
deriving DecidableEq, Repr

/-- Modelled from the spec: `src/concepts/mru.py` is imported by
`src/concepts/__init__.py` but the file itself is missing from the source
tree. Per the spec, MRU keeps the same ordering structure as LRU (an ordered
dict re-inserted on every access) and eviction picks the newest (back) entry;
as for LRU, an empty structure raises `StopIteration`. -/
def mruShouldEvict (c : InMemoryCache) : Except PyError String :=
  match c.access_order.getLast? with
  | Option.some k => Except.ok k
  | Option.none => Except.error PyError.stopIteration

/-- `self._strategy.should_evict(None, None, self._data)` for each strategy:
LRU takes the front of `access_order`, FIFO the front of `insertion_order`
(`next(iter(...))`, raising `StopIteration` when empty), LFU the key with the
minimal `access_count` (`min`, raising `ValueError` when the dict is empty),
and MRU is modelled from the spec (see `mruShouldEvict`). -/
def Strategy.should_evict (s : Strategy) (c : InMemoryCache) : Except PyError String :=
  match s with
  | Strategy.lru =>
      match c.access_order.head? with
      | Option.some k => Except.ok k
      | Option.none => Except.error PyError.stopIteration
  | Strategy.mru => mruShouldEvict c
  | Strategy.fifo =>
      match c.insertion_order.head? with
      | Option.some k => Except.ok k
      | Option.none => Except.error PyError.stopIteration
  | Strategy.lfu =>
      match lfuMin c.data with
      | Option.some k => Except.ok k
      | Option.none => Except.error PyError.valueError

/-- `self._strategy.on_access(key, item)`: LRU moves the key to the back of
`access_order`; MRU is modelled from the spec as using the same structure the
same way; LFU and FIFO have no-op `on_access`. -/
def InMemoryCache.onAccess (c : InMemoryCache) (k : String) : InMemoryCache :=
  match c.strategy with
  | Strategy.lru => { c with access_order := odMoveToEnd k c.access_order }
  | Strategy.mru => { c with access_order := odMoveToEnd k c.access_order }
  | Strategy.lfu => c
  | Strategy.fifo => c

/-- `FIFO.on_insert`: `self.insertion_order[key] = True`. -/
def InMemoryCache.onInsert (c : InMemoryCache) (k : String) : InMemoryCache :=
  match c.strategy with
  | Strategy.fifo => { c with insertion_order := odSet k c.insertion_order }
  | _ => c

/-- `InMemoryCache._cleanup_strategy_on_delete`: delete the key from
`access_order` / `insertion_order` when the strategy object has that
attribute (and the key is present — `odRemove` is a no-op otherwise). -/
def InMemoryCache.cleanup_strategy_on_delete (c : InMemoryCache) (k : String) : InMemoryCache :=
  let c1 :=
    if c.strategy.hasAccessOrder then { c with access_order := odRemove k c.access_order }
    else c
  if c1.strategy.hasInsertionOrder then { c1 with insertion_order := odRemove k c1.insertion_order }
  else c1

/-- The body shared by the two arms of `_evict_one`: `del self._data[key]`,
`self._cleanup_strategy_on_delete(key)`, `self._stats['evictions'] += 1`. -/
def InMemoryCache.evictRemove (c : InMemoryCache) (k : String) : InMemoryCache :=
  let c1 := InMemoryCache.cleanup_strategy_on_delete { c with data := dictRemove k c.data } k
  { c1 with evictions := c1.evictions + 1 }

/-- `InMemoryCache._evict_one`: no-op on an empty dict; otherwise ask the
strategy for a key and remove it — but only when the returned key is truthy
(a non-empty string) and present; `KeyError` / `StopIteration` from the
strategy fall back to removing the first key of the dict; any other
exception propagates. -/
def InMemoryCache.evict_one (c : InMemoryCache) : Except PyError InMemoryCache :=
  match c.data with
  | [] => Except.ok c
  | (k0, _) :: _ =>
    match c.strategy.should_evict c with
    | Except.ok k =>
        Except.ok (if k ≠ "" ∧ dictContains k c.data = true then c.evictRemove k else c)
    | Except.error PyError.stopIteration => Except.ok (c.evictRemove k0)
    | Except.error PyError.keyError => Except.ok (c.evictRemove k0)
    | Except.error e => Except.error e

/-- `InMemoryCache.get`. The key-type check is commented out in the source,
so any key value is accepted; a non-string key is never equal to the string
keys of the dict, hence falls into the miss branch. -/
def InMemoryCache.get (c : InMemoryCache) (key : PyVal) (now : Int) : PyVal × InMemoryCache :=
  match key with
  | PyVal.str k =>
    match dictLookup k c.data with
    | Option.none => (PyVal.none, { c with misses := c.misses + 1 })
    | Option.some item =>
      if item.is_expired now then
        let c1 := InMemoryCache.cleanup_strategy_on_delete { c with data := dictRemove k c.data } k
        (PyVal.none, { c1 with expired := c1.expired + 1, misses := c1.misses + 1 })
      else
        let item2 := item.touch now
        let c1 := InMemoryCache.onAccess { c with data := dictSet k item2 c.data } k
        (item2.value, { c1 with hits := c1.hits + 1 })
  | _ => (PyVal.none, { c with misses := c.misses + 1 })

/-- The body of `put` once validation has passed and the lock is held. -/
def InMemoryCache.putLocked (c : InMemoryCache) (k : String) (value : PyVal)
    (ttl : Option Int) (now : Int) : Except PyError InMemoryCache :=
  let item : CacheItem :=
    { value := value, created_at := now, ttl := ttl, access_count := 0, last_accessed := now }
  if dictContains k c.data then
    Except.ok (InMemoryCache.onAccess { c with data := dictSet k item c.data } k)
  else
    match (if c.data.length ≥ c.max_size then c.evict_one else Except.ok c) with
    | Except.error e => Except.error e
    | Except.ok c1 =>
      let c2 := InMemoryCache.onAccess { c1 with data := dictSet k item c1.data } k
      Except.ok (if c2.strategy.hasOnInsert then c2.onInsert k else c2)

/-- `InMemoryCache.put`: `TypeError` on a non-string key, `ValueError` on a
non-positive TTL, then the locked body. -/
def InMemoryCache.put (c : InMemoryCache) (key : PyVal) (value : PyVal)
    (ttl : Option Int) (now : Int) : Except PyError InMemoryCache :=
  match key with
  | PyVal.str k =>
    match ttl with
    | Option.some t =>
        if t ≤ 0 then Except.error PyError.valueError
        else c.putLocked k value (Option.some t) now
    | Option.none => c.putLocked k value Option.none now
  | _ => Except.error PyError.typeError

/-- `InMemoryCache.delete`: `TypeError` on a non-string key; otherwise remove
the entry and its strategy bookkeeping and report whether a removal happened. -/
def InMemoryCache.delete (c : InMemoryCache) (key : PyVal) :
    Except PyError (Bool × InMemoryCache) :=
  match key with
  | PyVal.str k =>
    if dictContains k c.data then
      Except.ok (true, InMemoryCache.cleanup_strategy_on_delete { c with data := dictRemove k c.data } k)
    else Except.ok (false, c)
  | _ => Except.error PyError.typeError

/-- `InMemoryCache._reset_strategy`: clear the ordering structures the
strategy object has. -/
def InMemoryCache.reset_strategy (c : InMemoryCache) : InMemoryCache :=
  let c1 :=
    if c.strategy.hasAccessOrder then { c with access_order := [] } else c
  if c1.strategy.hasInsertionOrder then { c1 with insertion_order := [] } else c1

/-- `InMemoryCache.clear`: `self._data.clear()` then `self._reset_strategy()`. -/
def InMemoryCache.clear (c : InMemoryCache) : InMemoryCache :=
  InMemoryCache.reset_strategy { c with data := [] }

/-- `InMemoryCache.size`. -/
def InMemoryCache.size (c : InMemoryCache) : Nat :=
  c.data.length

/-- `InMemoryCache.keys`. -/
def InMemoryCache.keys (c : InMemoryCache) : List String :=
  c.data.map Prod.fst

/-- Python's `round` to the nearest integer with ties to even, modelled on
exact rationals. -/
def pyRoundInt (x : ℚ) : Int :=
  let f := ⌊x⌋
  let r := x - (f : ℚ)
  if r < 1 / 2 then f
  else if 1 / 2 < r then f + 1
  else if f % 2 = 0 then f else f + 1

/-- Python's `round(x, 3)`, modelled on exact rationals. -/
def round3 (x : ℚ) : ℚ :=
  (pyRoundInt (x * 1000) : ℚ) / 1000

/-- The dictionary returned by `InMemoryCache.stats`. -/
structure Stats where
  hits : Nat
  misses : Nat
  evictions : Nat
  expired : Nat
  total_requests : Nat
  hit_rate : ℚ
  current_size : Nat
deriving DecidableEq, Repr

/-- `InMemoryCache.stats`. -/
def InMemoryCache.stats (c : InMemoryCache) : Stats :=
  let total := c.hits + c.misses
  let hit_rate : ℚ := if 0 < total then (c.hits : ℚ) / (total : ℚ) else 0
  { hits := c.hits, misses := c.misses, evictions := c.evictions, expired := c.expired,
    total_requests := total, hit_rate := round3 hit_rate, current_size := c.data.length }

/-- One iteration of the removal loop of `cleanup_expired`:
`del self._data[key]; self._cleanup_strategy_on_delete(key);
self._stats['expired'] += 1`. -/
def InMemoryCache.removeExpiredKey (c : InMemoryCache) (k : String) : InMemoryCache :=
  let c1 := InMemoryCache.cleanup_strategy_on_delete { c with data := dictRemove k c.data } k
  { c1 with expired := c1.expired + 1 }

/-- `InMemoryCache.cleanup_expired`: collect the expired keys, remove each,
return how many were removed. -/
def InMemoryCache.cleanup_expired (c : InMemoryCache) (now : Int) : Nat × InMemoryCache :=
  let expired_keys := (c.data.filter fun kv => kv.2.is_expired now).map Prod.fst
  (expired_keys.length, expired_keys.foldl InMemoryCache.removeExpiredKey c)

/-- `InMemoryCache.__init__`: reject a non-positive `max_size` and an unknown
strategy name; otherwise start empty with zeroed statistics. -/
def InMemoryCache.make (max_size : Int) (eviction_strategy : String) :
    Except PyError InMemoryCache :=
  if max_size ≤ 0 then Except.error PyError.valueError
  else
    let st :=
      if eviction_strategy = "lru" then Option.some Strategy.lru
      else if eviction_strategy = "mru" then Option.some Strategy.mru
      else if eviction_strategy = "lfu" then Option.some Strategy.lfu
      else if eviction_strategy = "fifo" then Option.some Strategy.fifo
      else Option.none
    match st with
    | Option.none => Except.error PyError.valueError
    | Option.some s =>
        Except.ok
          { max_size := max_size.toNat, strategy := s, data := [], access_order := [],
            insertion_order := [], hits := 0, misses := 0, evictions := 0, expired := 0 }

/-- The eviction scenario shared by the spec's LRU/MRU/LFU correctness
properties: on a fresh `maxSize = 2` cache with the given strategy, insert
`a` and `b`, read `a`, insert `c`, then report what `get` returns for `a`,
`b` and `c` (in that order). -/
def evalTrace3 (strategy : String) : Except PyError (PyVal × PyVal × PyVal) :=
  (InMemoryCache.make 2 strategy).bind fun c0 =>
  (c0.put (PyVal.str "a") (PyVal.int 1) Option.none 0).bind fun c1 =>
  (c1.put (PyVal.str "b") (PyVal.int 2) Option.none 1).bind fun c2 =>
  (c2.get (PyVal.str "a") 2).2.put (PyVal.str "c") (PyVal.int 3) Option.none 3 |>.map fun c4 =>
  let ra := c4.get (PyVal.str "a") 4
  let rb := ra.2.get (PyVal.str "b") 5
  let rc := rb.2.get (PyVal.str "c") 6
  (ra.1, rb.1, rc.1)

/-- A `maxSize = 1` LRU cache receiving two valid `put` calls with the
distinct string keys `""` and `"x"`; reports `(max_size, size())` at the end. -/
def capacityTrace : Except PyError (Nat × Nat) :=
  (InMemoryCache.make 1 "lru").bind fun c0 =>
  (c0.put (PyVal.str "") (PyVal.int 0) Option.none 0).bind fun c1 =>
  (c1.put (PyVal.str "x") (PyVal.int 1) Option.none 1).map fun c2 =>
  (c2.max_size, c2.size)

/-- `delete` called with the integer key `42` on a fresh cache. -/
def deleteIntTrace : Except PyError (Bool × InMemoryCache) :=
  (InMemoryCache.make 2 "lru").bind fun c0 => c0.delete (PyVal.int 42)

/-- A fresh `maxSize = 2` LRU cache, used to instantiate quantified theorems. -/
def exLruEmpty : InMemoryCache :=
  { max_size := 2, strategy := Strategy.lru, data := [], access_order := [],
    insertion_order := [], hits := 0, misses := 0, evictions := 0, expired := 0 }

/-- An item with TTL 1 created at time 0: expired at any time after 1. -/
def exItemExpired : CacheItem :=
  { value := PyVal.int 7, created_at := 0, ttl := Option.some 1, access_count := 0,
    last_accessed := 0 }

/-- An item without TTL: never expires. -/
def exItemFresh : CacheItem :=
  { value := PyVal.int 8, created_at := 0, ttl := Option.none, access_count := 0,
    last_accessed := 0 }

/-- An LRU cache holding the expired item under `"a"` and the fresh item under
`"b"`, with non-zero statistics counters. -/
def exLruTwo : InMemoryCache :=
  { max_size := 5, strategy := Strategy.lru, data := [("a", exItemExpired), ("b", exItemFresh)],
    access_order := ["a", "b"], insertion_order := [], hits := 3, misses := 4,
    evictions := 5, expired := 6 }

/-- The state reached by `put("k", None)` at time 0 on `exLruEmpty`. -/
def exAfterPutNone : InMemoryCache :=
  { max_size := 2, strategy := Strategy.lru,
    data := [("k", { value := PyVal.none, created_at := 0, ttl := Option.none,
                     access_count := 0, last_accessed := 0 })],
    access_order := ["k"], insertion_order := [], hits := 0, misses := 0,
    evictions := 0, expired := 0 }

/-- C1: the capacity invariant fails on the code. On a cache constructed with
`maxSize = 1` and strategy LRU, the two valid `put` calls with distinct string
keys `""` and `"x"` leave `size() = 2 > maxSize = 1`: `_evict_one` receives
the key `""` from the policy, the truthiness guard `if key_to_evict and ...`
treats the empty string as falsy and skips the removal, no exception is
raised so the fallback path never runs, and the insertion then overflows the
mapping. -/
theorem C1_capacity_violation : capacityTrace = Except.ok (1, 2) := by rfl

/-- C3: with `maxSize = 2` and the MRU strategy, inserting `a` and `b`,
reading `a`, then inserting `c` evicts `a` (the most recently touched key),
leaving `b` and `c` retrievable. -/
theorem C3_mru_eviction :
    evalTrace3 "mru" = Except.ok (PyVal.none, PyVal.int 2, PyVal.int 3) := by rfl

/-- C4: with `maxSize = 2` and the LFU strategy, inserting `a` and `b`,
reading `a` once (access counts: `a` 1, `b` 0), then inserting `c` evicts
`b`, the key with the lowest recorded access count; `a` and `c` stay
retrievable and `b` is absent. -/
theorem C4_lfu_eviction :
    evalTrace3 "lfu" = Except.ok (PyVal.int 1, PyVal.none, PyVal.int 3) := by rfl

/-- C5: with `maxSize = 2` and the LRU strategy, inserting `a` and `b`,
reading `a`, then inserting `c` evicts `b` and not `a`: afterwards `a` and
`c` are retrievable and `b` is absent. -/
theorem C5_lru_eviction :
    evalTrace3 "lru" = Except.ok (PyVal.int 1, PyVal.none, PyVal.int 3) := by rfl

/-- C2 counterexample: `delete` is not total over keys of any type — called
with the integer key `42` it raises `TypeError` instead of returning `False`. -/
theorem C2_delete_raises_on_int_key :
    deleteIntTrace = Except.error PyError.typeError := by rfl

theorem round3_zero : round3 0 = 0 := by
  have h : pyRoundInt 0 = 0 := by norm_num [pyRoundInt]
  simp [round3, h]

/-- C7: for every cache state, `stats()` reports `total_requests` equal to
`hits + misses`, `hit_rate` equal to `hits / total_requests` rounded to three
decimal places when `total_requests > 0` and `0` otherwise, and
`current_size` equal to `size()`. -/
theorem C7_stats_correct (c : InMemoryCache) :
    (c.stats).total_requests = c.hits + c.misses ∧
    (c.stats).hit_rate =
      (if 0 < c.hits + c.misses then
        round3 ((c.hits : ℚ) / ((c.hits : ℚ) + (c.misses : ℚ)))
       else 0) ∧
    (c.stats).current_size = c.size := by
  refine ⟨rfl, ?_, rfl⟩
  by_cases h : 0 < c.hits + c.misses
  · simp [InMemoryCache.stats, h]
  · simp [InMemoryCache.stats, h, round3_zero]

theorem C7_stats_correct_witness :
    (exLruTwo.stats).total_requests = exLruTwo.hits + exLruTwo.misses ∧
    (exLruTwo.stats).hit_rate =
      (if 0 < exLruTwo.hits + exLruTwo.misses then
        round3 ((exLruTwo.hits : ℚ) / ((exLruTwo.hits : ℚ) + (exLruTwo.misses : ℚ)))
       else 0) ∧
    (exLruTwo.stats).current_size = exLruTwo.size :=
  C7_stats_correct exLruTwo

/-- C8: `clear()` empties the mapping and the ordering structures the active
strategy object owns (`access_order` for LRU/MRU, `insertion_order` for FIFO —
the attributes the other strategies do not have are untouched), while every
statistics counter keeps its value. -/
theorem C8_clear_frame (c : InMemoryCache) :
    (c.clear).data = [] ∧
    (c.clear).access_order = (if c.strategy.hasAccessOrder then [] else c.access_order) ∧
    (c.clear).insertion_order = (if c.strategy.hasInsertionOrder then [] else c.insertion_order) ∧
    (c.clear).hits = c.hits ∧
    (c.clear).misses = c.misses ∧
    (c.clear).evictions = c.evictions ∧
    (c.clear).expired = c.expired := by
  obtain ⟨ms, st, d, ao, io, h, m, e, ex⟩ := c
  cases st <;>
    simp [InMemoryCache.clear, InMemoryCache.reset_strategy, Strategy.hasAccessOrder,
      Strategy.hasInsertionOrder]

theorem C8_clear_frame_witness :
    (exLruTwo.clear).data = [] ∧
    (exLruTwo.clear).access_order =
      (if exLruTwo.strategy.hasAccessOrder then [] else exLruTwo.access_order) ∧
    (exLruTwo.clear).insertion_order =
      (if exLruTwo.strategy.hasInsertionOrder then [] else exLruTwo.insertion_order) ∧
    (exLruTwo.clear).hits = exLruTwo.hits ∧
    (exLruTwo.clear).misses = exLruTwo.misses ∧
    (exLruTwo.clear).evictions = exLruTwo.evictions ∧
    (exLruTwo.clear).expired = exLruTwo.expired :=
  C8_clear_frame exLruTwo

theorem dictContains_false_lookup (k : String) (d : List (String × CacheItem))
    (h : dictContains k d = false) : dictLookup k d = Option.none := by
  unfold dictContains at h
  cases hx : dictLookup k d
  · rfl
  · rw [hx] at h
    simp at h

/-- C2 amended: `get` returns normally for every (hashable) key value — a
non-string or absent key yields `None` — and `delete` returns normally for
every *string* key, yielding `False` on an absent key; on a non-string key
`delete` raises `TypeError` (see the counterexample theorem). -/
theorem C2_total_on_string_keys (c : InMemoryCache) (k : String) (now : Int) (v : PyVal)
    (habs : dictContains k c.data = false) (hv : v.isStr = false) :
    (c.get (PyVal.str k) now).1 = PyVal.none ∧
    c.delete (PyVal.str k) = Except.ok (false, c) ∧
    (c.get v now).1 = PyVal.none ∧
    (∀ k2 : String, ∃ r, c.delete (PyVal.str k2) = Except.ok r) := by
  have hlk := dictContains_false_lookup k c.data habs
  refine ⟨?_, ?_, ?_, ?_⟩
  · simp [InMemoryCache.get, hlk]
  · simp [InMemoryCache.delete, habs]
  · cases v <;> simp [PyVal.isStr] at hv ⊢ <;> simp [InMemoryCache.get, hlk]
  · intro k2
    by_cases h2 : dictContains k2 c.data = true
    · refine ⟨(true, InMemoryCache.cleanup_strategy_on_delete
        { c with data := dictRemove k2 c.data } k2), ?_⟩
      simp [InMemoryCache.delete, h2]
    · refine ⟨(false, c), ?_⟩
      simp [InMemoryCache.delete, h2]

theorem C2_total_on_string_keys_witness :
    dictContains "zz" exLruTwo.data = false ∧
    PyVal.isStr (PyVal.int 5) = false ∧
    (exLruTwo.get (PyVal.str "zz") 0).1 = PyVal.none ∧
    exLruTwo.delete (PyVal.str "zz") = Except.ok (false, exLruTwo) ∧
    (exLruTwo.get (PyVal.int 5) 0).1 = PyVal.none :=
  ⟨by decide, by decide,
   (C2_total_on_string_keys exLruTwo "zz" 0 (PyVal.int 5) (by decide) (by decide)).1,
   (C2_total_on_string_keys exLruTwo "zz" 0 (PyVal.int 5) (by decide) (by decide)).2.1,
   (C2_total_on_string_keys exLruTwo "zz" 0 (PyVal.int 5) (by decide) (by decide)).2.2.1⟩

/-- C6: a `get` on a key whose entry is present but expired removes the entry
from the mapping and from the strategy's ordering structures, adds exactly 1
to the `expired` counter and exactly 1 to the `misses` counter, leaves `hits`
(and `evictions`) unchanged, and returns `None`. -/
theorem C6_expired_get (c : InMemoryCache) (k : String) (it : CacheItem) (now : Int)
    (hk : dictLookup k c.data = Option.some it) (hexp : it.is_expired now = true) :
    (c.get (PyVal.str k) now).1 = PyVal.none ∧
    (c.get (PyVal.str k) now).2.data = dictRemove k c.data ∧
    (c.get (PyVal.str k) now).2.access_order =
      (if c.strategy.hasAccessOrder then odRemove k c.access_order else c.access_order) ∧
    (c.get (PyVal.str k) now).2.insertion_order =
      (if c.strategy.hasInsertionOrder then odRemove k c.insertion_order else c.insertion_order) ∧
    (c.get (PyVal.str k) now).2.expired = c.expired + 1 ∧
    (c.get (PyVal.str k) now).2.misses = c.misses + 1 ∧
    (c.get (PyVal.str k) now).2.hits = c.hits ∧
    (c.get (PyVal.str k) now).2.evictions = c.evictions := by
  obtain ⟨ms, st, d, ao, io, h, m, e, ex⟩ := c
  cases st <;>
    simp [InMemoryCache.get, hk, hexp, InMemoryCache.cleanup_strategy_on_delete,
      Strategy.hasAccessOrder, Strategy.hasInsertionOrder]

theorem C6_expired_get_witness :
    dictLookup "a" exLruTwo.data = Option.some exItemExpired ∧
    exItemExpired.is_expired 5 = true ∧
    (exLruTwo.get (PyVal.str "a") 5).1 = PyVal.none ∧
    (exLruTwo.get (PyVal.str "a") 5).2.data = dictRemove "a" exLruTwo.data ∧
    (exLruTwo.get (PyVal.str "a") 5).2.expired = exLruTwo.expired + 1 ∧
    (exLruTwo.get (PyVal.str "a") 5).2.misses = exLruTwo.misses + 1 ∧
    (exLruTwo.get (PyVal.str "a") 5).2.hits = exLruTwo.hits :=
  ⟨by decide, by decide,
   (C6_expired_get exLruTwo "a" exItemExpired 5 (by decide) (by decide)).1,
   (C6_expired_get exLruTwo "a" exItemExpired 5 (by decide) (by decide)).2.1,
   (C6_expired_get exLruTwo "a" exItemExpired 5 (by decide) (by decide)).2.2.2.2.1,
   (C6_expired_get exLruTwo "a" exItemExpired 5 (by decide) (by decide)).2.2.2.2.2.1,
   (C6_expired_get exLruTwo "a" exItemExpired 5 (by decide) (by decide)).2.2.2.2.2.2.1⟩

theorem dictLookup_set_self (k : String) (v : CacheItem) (d : List (String × CacheItem)) :
    dictLookup k (dictSet k v d) = Option.some v := by
  induction d with
  | nil => simp [dictSet, dictLookup]
  | cons kv rest ih =>
    obtain ⟨k2, v2⟩ := kv
    by_cases h : k2 = k <;> simp [dictSet, dictLookup, h, ih]

theorem onAccess_data (c : InMemoryCache) (k : String) : (c.onAccess k).data = c.data := by
  obtain ⟨ms, st, d, ao, io, h, m, e, ex⟩ := c
  cases st <;> rfl

theorem onAccess_hits (c : InMemoryCache) (k : String) : (c.onAccess k).hits = c.hits := by
  obtain ⟨ms, st, d, ao, io, h, m, e, ex⟩ := c
  cases st <;> rfl

theorem onInsert_data (c : InMemoryCache) (k : String) : (c.onInsert k).data = c.data := by
  obtain ⟨ms, st, d, ao, io, h, m, e, ex⟩ := c
  cases st <;> rfl

theorem onInsert_hits (c : InMemoryCache) (k : String) : (c.onInsert k).hits = c.hits := by
  obtain ⟨ms, st, d, ao, io, h, m, e, ex⟩ := c
  cases st <;> rfl

theorem evictRemove_hits (c : InMemoryCache) (k : String) :
    (c.evictRemove k).hits = c.hits := by
  obtain ⟨ms, st, d, ao, io, h, m, e, ex⟩ := c
  cases st <;> rfl

theorem evict_one_ok_hits (c c1 : InMemoryCache) (h : c.evict_one = Except.ok c1) :
    c1.hits = c.hits := by
  unfold InMemoryCache.evict_one at h
  split at h
  · injection h with h
    rw [← h]
  · split at h
    · injection h with h
      rw [← h]
      split
      · exact evictRemove_hits c _
      · rfl
    all_goals
      first
      | (injection h with h
         rw [← h]
         exact evictRemove_hits c _)
      | simp at h

theorem hasOnInsert_branch_data (c : InMemoryCache) (k : String) :
    (if c.strategy.hasOnInsert = true then c.onInsert k else c).data = c.data := by
  split
  · exact onInsert_data c k
  · rfl

theorem hasOnInsert_branch_hits (c : InMemoryCache) (k : String) :
    (if c.strategy.hasOnInsert = true then c.onInsert k else c).hits = c.hits := by
  split
  · exact onInsert_hits c k
  · rfl

theorem putLocked_ok (c : InMemoryCache) (k : String) (v : PyVal) (ttl : Option Int)
    (now : Int) (c2 : InMemoryCache)
    (h : c.putLocked k v ttl now = Except.ok c2) :
    (∃ d, c2.data = dictSet k
      { value := v, created_at := now, ttl := ttl, access_count := 0, last_accessed := now } d) ∧
    c2.hits = c.hits := by
  unfold InMemoryCache.putLocked at h
  split at h
  · injection h with h
    exact ⟨⟨c.data, by rw [← h, onAccess_data]⟩, by rw [← h, onAccess_hits]⟩
  · split at h
    · simp at h
    · rename_i c1 heq
      injection h with h
      have hhits : c1.hits = c.hits := by
        split at heq
        · exact evict_one_ok_hits c c1 heq
        · injection heq with heq
          rw [heq]
      refine ⟨⟨c1.data, ?_⟩, ?_⟩
      · rw [← h, hasOnInsert_branch_data, onAccess_data]
      · rw [← h, hasOnInsert_branch_hits, onAccess_hits]
        exact hhits

/-- C9: after a successful `put(k, None)` with no TTL, `get(k)` returns
`None` — the same return value `get` produces for an absent key, so the
return value alone cannot distinguish a stored-`None` hit from a miss —
while still touching the entry (its access count becomes 1) and adding 1 to
the `hits` counter. -/
theorem C9_stored_none_indistinguishable (c c2 : InMemoryCache) (k : String) (now now2 : Int)
    (hput : c.put (PyVal.str k) PyVal.none Option.none now = Except.ok c2) :
    (c2.get (PyVal.str k) now2).1 = PyVal.none ∧
    (c2.get (PyVal.str k) now2).2.hits = c2.hits + 1 ∧
    ((dictLookup k (c2.get (PyVal.str k) now2).2.data).map CacheItem.access_count) =
      Option.some 1 ∧
    (∀ (d : InMemoryCache) (s : String) (n : Int), dictContains s d.data = false →
       (d.get (PyVal.str s) n).1 = PyVal.none) := by
  have hput2 : c.putLocked k PyVal.none Option.none now = Except.ok c2 := hput
  obtain ⟨⟨d1, hd⟩, -⟩ := putLocked_ok c k PyVal.none Option.none now c2 hput2
  have hlk : dictLookup k c2.data = Option.some
      { value := PyVal.none, created_at := now, ttl := Option.none, access_count := 0,
        last_accessed := now } := by
    rw [hd]
    exact dictLookup_set_self k _ d1
  refine ⟨?_, ?_, ?_, ?_⟩
  · simp [InMemoryCache.get, hlk, CacheItem.is_expired, CacheItem.touch]
  · simp [InMemoryCache.get, hlk, CacheItem.is_expired, CacheItem.touch, onAccess_hits]
  · simp [InMemoryCache.get, hlk, CacheItem.is_expired, CacheItem.touch, onAccess_data,
      dictLookup_set_self]
  · intro d s n habs
    have hlk2 := dictContains_false_lookup s d.data habs
    simp [InMemoryCache.get, hlk2]

theorem C9_stored_none_indistinguishable_witness :
    (exLruEmpty.put (PyVal.str "k") PyVal.none Option.none 0 = Except.ok exAfterPutNone) ∧
    (exAfterPutNone.get (PyVal.str "k") 1).1 = PyVal.none ∧
    (exAfterPutNone.get (PyVal.str "k") 1).2.hits = exAfterPutNone.hits + 1 ∧
    ((dictLookup "k" (exAfterPutNone.get (PyVal.str "k") 1).2.data).map CacheItem.access_count) =
      Option.some 1 :=
  ⟨by rfl,
   (C9_stored_none_indistinguishable exLruEmpty exAfterPutNone "k" 0 1 (by rfl)).1,
   (C9_stored_none_indistinguishable exLruEmpty exAfterPutNone "k" 0 1 (by rfl)).2.1,
   (C9_stored_none_indistinguishable exLruEmpty exAfterPutNone "k" 0 1 (by rfl)).2.2.1⟩

theorem dictLookup_remove_ne (k k2 : String) (d : List (String × CacheItem)) (h : k ≠ k2) :
    dictLookup k (dictRemove k2 d) = dictLookup k d := by
  induction d with
  | nil => rfl
  | cons kv rest ih =>
    obtain ⟨k3, v3⟩ := kv
    by_cases h3 : k3 = k2
    · subst h3
      simp [dictRemove, dictLookup, Ne.symm h]
    · by_cases h4 : k3 = k <;> simp [dictRemove, dictLookup, h3, h4, h, ih]

theorem dictLookup_of_mem_nodup (d : List (String × CacheItem)) (k : String) (v : CacheItem)
    (hnd : (d.map Prod.fst).Nodup) (hm : (k, v) ∈ d) : dictLookup k d = Option.some v := by
  induction d with
  | nil => simp at hm
  | cons kv rest ih =>
    obtain ⟨k3, v3⟩ := kv
    rw [List.map_cons, List.nodup_cons] at hnd
    rcases List.mem_cons.mp hm with hm1 | hm1
    · rw [Prod.mk.injEq] at hm1
      obtain ⟨hk, hv⟩ := hm1
      simp [dictLookup, hk, hv]
    · by_cases h3 : k3 = k
      · exfalso
        apply hnd.1
        rw [h3]
        exact List.mem_map.mpr ⟨(k, v), hm1, rfl⟩
      · simp only [dictLookup, h3, if_false]
        exact ih hnd.2 hm1

theorem removeExpiredKey_frame (c : InMemoryCache) (k : String) :
    (c.removeExpiredKey k).hits = c.hits ∧
    (c.removeExpiredKey k).misses = c.misses ∧
    (c.removeExpiredKey k).evictions = c.evictions ∧
    (c.removeExpiredKey k).data = dictRemove k c.data := by
  obtain ⟨ms, st, d, ao, io, h, m, e, ex⟩ := c
  cases st <;> exact ⟨rfl, rfl, rfl, rfl⟩

theorem foldl_removeExpiredKey_frame (S : List String) (c : InMemoryCache) :
    (S.foldl InMemoryCache.removeExpiredKey c).hits = c.hits ∧
    (S.foldl InMemoryCache.removeExpiredKey c).misses = c.misses ∧
    (S.foldl InMemoryCache.removeExpiredKey c).evictions = c.evictions := by
  induction S generalizing c with
  | nil => exact ⟨rfl, rfl, rfl⟩
  | cons k S ih =>
    obtain ⟨ha, hb, hc⟩ := ih (c.removeExpiredKey k)
    obtain ⟨f1, f2, f3, -⟩ := removeExpiredKey_frame c k
    exact ⟨by rw [List.foldl_cons, ha, f1], by rw [List.foldl_cons, hb, f2],
      by rw [List.foldl_cons, hc, f3]⟩

theorem foldl_removeExpiredKey_data (S : List String) (c : InMemoryCache) :
    (S.foldl InMemoryCache.removeExpiredKey c).data =
      S.foldl (fun d2 k2 => dictRemove k2 d2) c.data := by
  induction S generalizing c with
  | nil => rfl
  | cons k S ih =>
    rw [List.foldl_cons, List.foldl_cons, ih, (removeExpiredKey_frame c k).2.2.2]

theorem dictLookup_foldl_remove (S : List String) (d : List (String × CacheItem))
    (k : String) (hk : k ∉ S) :
    dictLookup k (S.foldl (fun d2 k2 => dictRemove k2 d2) d) = dictLookup k d := by
  induction S generalizing d with
  | nil => rfl
  | cons k2 S ih =>
    rw [List.mem_cons, not_or] at hk
    rw [List.foldl_cons, ih (dictRemove k2 d) hk.2, dictLookup_remove_ne k k2 d hk.1]

theorem filter_expired_nil (now : Int) (d : List (String × CacheItem))
    (h : (d.all fun kv => !(kv.2.is_expired now)) = true) :
    (d.filter fun kv => kv.2.is_expired now) = [] := by
  induction d with
  | nil => rfl
  | cons kv rest ih =>
    rw [List.all_cons, Bool.and_eq_true] at h
    have hkv : kv.2.is_expired now = false := by
      rcases h with ⟨h1, -⟩
      cases hx : kv.2.is_expired now
      · rfl
      · rw [hx] at h1
        simp at h1
    rw [List.filter_cons, hkv]
    simp only [Bool.false_eq_true, if_false]
    exact ih h.2

/-- C10: `cleanup_expired` never removes a non-expired entry (every entry that
is not expired at the call time is still present, unchanged, afterwards) and
never modifies the `hits`, `misses` or `evictions` counters; when no entry is
expired it returns 0 and leaves the whole cache state — mapping, ordering
structures and all statistics counters — unchanged. The hypothesis that the
keys of the mapping are pairwise distinct is the Python `dict` invariant. -/
theorem C10_cleanup_expired_frame (c : InMemoryCache) (now : Int)
    (hnd : (c.data.map Prod.fst).Nodup) :
    (c.cleanup_expired now).2.hits = c.hits ∧
    (c.cleanup_expired now).2.misses = c.misses ∧
    (c.cleanup_expired now).2.evictions = c.evictions ∧
    (∀ k it, dictLookup k c.data = Option.some it → it.is_expired now = false →
        dictLookup k (c.cleanup_expired now).2.data = Option.some it) ∧
    ((c.data.all fun kv => !(kv.2.is_expired now)) = true →
        (c.cleanup_expired now).1 = 0 ∧ (c.cleanup_expired now).2 = c) := by
  obtain ⟨hf1, hf2, hf3⟩ := foldl_removeExpiredKey_frame
    ((c.data.filter fun kv => kv.2.is_expired now).map Prod.fst) c
  refine ⟨hf1, hf2, hf3, ?_, ?_⟩
  · intro k it hlk hne
    have hknot : k ∉ (c.data.filter fun kv => kv.2.is_expired now).map Prod.fst := by
      intro hmem
      obtain ⟨kv, hkv, hfst⟩ := List.mem_map.mp hmem
      rw [List.mem_filter] at hkv
      obtain ⟨hkv1, hkv2⟩ := hkv
      have : dictLookup k c.data = Option.some kv.2 := by
        apply dictLookup_of_mem_nodup c.data k kv.2 hnd
        rw [← hfst]
        exact hkv1
      rw [hlk] at this
      injection this with this
      rw [← this] at hkv2
      rw [hne] at hkv2
      simp at hkv2
    show dictLookup k (((c.data.filter fun kv => kv.2.is_expired now).map
      Prod.fst).foldl InMemoryCache.removeExpiredKey c).data = Option.some it
    rw [foldl_removeExpiredKey_data, dictLookup_foldl_remove _ _ _ hknot]
    exact hlk
  · intro hall
    have hnil := filter_expired_nil now c.data hall
    constructor
    · show ((c.data.filter fun kv => kv.2.is_expired now).map Prod.fst).length = 0
      rw [hnil]
      rfl
    · show ((c.data.filter fun kv => kv.2.is_expired now).map
        Prod.fst).foldl InMemoryCache.removeExpiredKey c = c
      rw [hnil]
      rfl

theorem C10_cleanup_expired_frame_witness :
    ((exLruTwo.data.map Prod.fst).Nodup) ∧
    dictLookup "b" exLruTwo.data = Option.some exItemFresh ∧
    exItemFresh.is_expired 5 = false ∧
    (exLruTwo.cleanup_expired 5).2.hits = exLruTwo.hits ∧
    (exLruTwo.cleanup_expired 5).2.misses = exLruTwo.misses ∧
    (exLruTwo.cleanup_expired 5).2.evictions = exLruTwo.evictions ∧
    dictLookup "b" (exLruTwo.cleanup_expired 5).2.data = Option.some exItemFresh :=
  ⟨by decide, by decide, by decide,
   (C10_cleanup_expired_frame exLruTwo 5 (by decide)).1,
   (C10_cleanup_expired_frame exLruTwo 5 (by decide)).2.1,
   (C10_cleanup_expired_frame exLruTwo 5 (by decide)).2.2.1,
   (C10_cleanup_expired_frame exLruTwo 5 (by decide)).2.2.2.1 "b" exItemFresh
     (by decide) (by decide)⟩
